import Mathlib

/-!
Shallow embedding of the CreatorSiSo/protocol repository (Rust), covering the
escape encoder (`src/escape.rs`), the frame packer and polled connection of
`src/main.rs`, and the nibble input/output streams of `src/stream.rs`.

Machine integers (`u8`, `u16`, `usize`) are modelled as `Nat`.  Where the Rust
code shifts and masks on a power-of-two boundary the embedding uses `* / %` by
the corresponding constants (`x << 4` on `u16` is `(x * 16) % 65536`,
`x >> 8` followed by `as u8` is `(x / 256) % 256`); an `|=` whose left operand
has zero low bits is addition.  A genuine bitwise OR into possibly-occupied
bits (the data-cell writes of `InputStream::reading_frame`) stays `|||`.
Rust iterators become explicit state passing; `io::Result<u8>` is
`Except Unit Nat`; code paths that panic (`todo!`, out-of-range `usize`
subtraction) are modelled with `Option`, `none` standing for the panic.
-/

/-- `EscapeCode` from `src/escape.rs` (seven variants, including both halves of
the buffer pair: `Buffer1 = 0x56` and `Buffer2 = 0x65`). -/
inductive EscapeCode
  | StartOfFrame
  | EndOfFrame
  | CorrectFrameData
  | IncorrectFrameData
  | Buffer1
  | Buffer2
  | FinishedSending
deriving DecidableEq, Repr

/-- The discriminant value of each variant (`EscapeCode as u8`). -/
def EscapeCode.value : EscapeCode → Nat
  | .StartOfFrame => 0x12
  | .EndOfFrame => 0x23
  | .CorrectFrameData => 0x34
  | .IncorrectFrameData => 0x45
  | .Buffer1 => 0x56
  | .Buffer2 => 0x65
  | .FinishedSending => 0x67

/-- `EscapeCode::VALUES` from `src/escape.rs`. -/
def EscapeCode.values : List Nat :=
  [0x12, 0x23, 0x34, 0x45, 0x56, 0x65, 0x67]

/-- `EscapeCode::from_byte`: the inverse of the discriminant table
(`VALUES.contains(&byte).then_some(transmute(byte))`). -/
def EscapeCode.from_byte (byte : Nat) : Option EscapeCode :=
  if byte = 0x12 then some EscapeCode.StartOfFrame
  else if byte = 0x23 then some EscapeCode.EndOfFrame
  else if byte = 0x34 then some EscapeCode.CorrectFrameData
  else if byte = 0x45 then some EscapeCode.IncorrectFrameData
  else if byte = 0x56 then some EscapeCode.Buffer1
  else if byte = 0x65 then some EscapeCode.Buffer2
  else if byte = 0x67 then some EscapeCode.FinishedSending
  else Option.none

deriving instance DecidableEq for Except

/-- `Escaped<I>` from `src/escape.rs`: the remaining items of the underlying
source, the pending second half of an escaped value, and the `done` flag. -/
structure Escaped where
  bytes : List (Except Unit Nat)
  escape : Option Nat
  done : Bool
deriving DecidableEq, Repr

/-- `Escaped::new`. -/
def Escaped.new (bytes : List (Except Unit Nat)) : Escaped :=
  { bytes := bytes, escape := Option.none, done := false }

/-- `Escaped::is_done`. -/
def Escaped.is_done (e : Escaped) : Bool :=
  e.done

/-- `<Escaped as Iterator>::next`.  Returns the yielded item (if any) and the
successor state.  Note the source line `self.done = result.is_some()`: `done`
is set on the pull path only, and records whether the pull yielded `Some`. -/
def Escaped.next (e : Escaped) : Option (Except Unit Nat) × Escaped :=
  match e.escape with
  | some byte => (some (Except.ok byte), { e with escape := Option.none })
  | Option.none =>
    match e.bytes with
    | [] => (Option.none, { e with done := false })
    | item :: rest =>
      let esc : Option Nat :=
        match item with
        | Except.ok byte => if byte ∈ EscapeCode.values then some byte else Option.none
        | Except.error _ => Option.none
      (some item, { bytes := rest, escape := esc, done := true })

/-- Driver that collects every item `Escaped::next` yields until the first
`None`; the fuel `2 * bytes.length + 1` is enough (proved below). -/
def Escaped.drainAux : Nat → Escaped → List (Except Unit Nat)
  | 0, _ => []
  | Nat.succ fuel, e =>
    match Escaped.next e with
    | (Option.none, _) => []
    | (some item, e2) => item :: Escaped.drainAux fuel e2

/-- All items yielded by the `Escaped` iterator, in order. -/
def Escaped.drain (e : Escaped) : List (Except Unit Nat) :=
  Escaped.drainAux (2 * e.bytes.length + 1) e

/-- Written from the spec's words (for comparison with the code): "For every
input byte `b`: if `b` is one of the EscapeCode values, emit `b` then `b`
again (two bytes); else emit `b`.  Errors from the underlying source are
forwarded as-is."  Stated over the seven-value table of `src/escape.rs`. -/
def escapedSpec : List (Except Unit Nat) → List (Except Unit Nat)
  | [] => []
  | Except.ok b :: rest =>
    if b ∈ EscapeCode.values then Except.ok b :: Except.ok b :: escapedSpec rest
    else Except.ok b :: escapedSpec rest
  | Except.error e :: rest => Except.error e :: escapedSpec rest

/-- `ESCAPE_CODE_LEN` from `src/main.rs`. -/
def ESCAPE_CODE_LEN : Nat := 1

/-- `CHECKSUM_LEN` from `src/main.rs`. -/
def CHECKSUM_LEN : Nat := 0

/-- `FRAME_DATA_LEN` from `src/main.rs`. -/
def FRAME_DATA_LEN : Nat := 64

/-- `FRAME_LEN` from `src/main.rs`. -/
def FRAME_LEN : Nat := ESCAPE_CODE_LEN + FRAME_DATA_LEN + CHECKSUM_LEN + ESCAPE_CODE_LEN

/-- The data-filling loop of `encode_frame`: pull up to `n` bytes from the
escaped source; stop early (without error) when the source yields `None`.
A `Some(Err(_))` item hits `todo!()` in the source, modelled as `none`. -/
def encodeCells : Nat → Escaped → Option (List Nat × Escaped)
  | 0, e => some ([], e)
  | Nat.succ k, e =>
    match Escaped.next e with
    | (some (Except.ok byte), e2) =>
      match encodeCells k e2 with
      | some (cells, e3) => some (byte :: cells, e3)
      | Option.none => Option.none
    | (some (Except.error _), _) => Option.none
    | (Option.none, e2) => some ([], e2)

/-- `encode_frame` from `src/main.rs`: `[SOF | data (zero-padded) | EOF]`
(`CHECKSUM_LEN = 0`), together with the advanced source state. -/
def encode_frame (data : Escaped) : Option (List Nat × Escaped) :=
  match encodeCells FRAME_DATA_LEN data with
  | some (cells, e) =>
    some (EscapeCode.value EscapeCode.StartOfFrame ::
      (cells ++ List.replicate (FRAME_DATA_LEN - cells.length) 0) ++
      [EscapeCode.value EscapeCode.EndOfFrame], e)
  | Option.none => Option.none

example : Escaped.drain (Escaped.new [Except.ok 1, Except.ok 0x23, Except.error ()]) =
    [Except.ok 1, Except.ok 0x23, Except.ok 0x23, Except.error ()] := by decide

example : (encode_frame (Escaped.new (List.replicate 64 (Except.ok 1)))).map (fun p => p.1) =
    some (0x12 :: (List.replicate 64 1 ++ [0x23])) := by decide

/-- `DecodedValue` from `src/stream.rs`. -/
inductive DecodedValue
  | Nibble (value : Nat)
  | Byte (value : Nat)
  | EscapeCode (code : EscapeCode)
deriving DecidableEq, Repr

/-- `InputState` from `src/stream.rs`. -/
inductive InputState
  | WaitingForFrame
  | ReadingFrame
deriving DecidableEq, Repr

/-- `Command` from `src/stream.rs`. -/
inductive Command
  | Received (data : List Nat)
  | SendNextFrame
  | ResendLastFrame
  | StopReceivingData
  | none
deriving DecidableEq, Repr

/-- `InputStream` from `src/stream.rs`: decoder state, the 16-bit window of
the last four nibbles, its fill level, the data buffer of
`FRAME_DATA_LEN + CHECKSUM_LEN` bytes, and the nibble write index. -/
structure InputStream where
  state : InputState
  window : Nat
  window_length : Nat
  data : List Nat
  data_index : Nat
deriving DecidableEq, Repr

/-- `InputStream::new`. -/
def InputStream.new : InputStream :=
  { state := InputState.WaitingForFrame
    window := 0x0000
    window_length := 0
    data := List.replicate (FRAME_DATA_LEN + CHECKSUM_LEN) 0
    data_index := 0 }

/-- `InputStream::window_push`: reject the nibble when the line value did not
change, else shift it into the window; the returned flag says whether the
window now holds four nibbles and should be decoded.  `window <<= 4` on `u16`
is `* 16 % 65536`; the ORed-in nibble occupies the cleared low bits. -/
def InputStream.window_push (s : InputStream) (nibble : Nat) : Bool × InputStream :=
  let nibble := nibble % 16
  let previous_nibble := (s.window % 256) % 16
  if previous_nibble = nibble then
    (false, s)
  else
    let window := (s.window * 16) % 65536 + nibble
    let window_length := (s.window_length + 1) % 256
    (window_length == 4, { s with window := window, window_length := window_length })

/-- `InputStream::window_decode_value`: classify the window contents and
shrink `window_length` so decoded bytes are not decoded again. -/
def InputStream.window_decode_value (s : InputStream) : DecodedValue × InputStream :=
  let higher_byte := (s.window / 256) % 256
  let lower_byte := s.window % 256
  match EscapeCode.from_byte higher_byte with
  | some escape_code =>
    if higher_byte = lower_byte then
      (DecodedValue.Byte ((s.window / 256) % 256), { s with window_length := 0 })
    else
      (DecodedValue.EscapeCode escape_code, { s with window_length := 2 })
  | Option.none =>
    (DecodedValue.Nibble ((s.window / 4096) % 256), { s with window_length := 3 })

/-- `InputStream::waiting_for_frame`. -/
def InputStream.waiting_for_frame (s : InputStream) (nibble : Nat) : Command × InputStream :=
  match s.window_push nibble with
  | (false, s) => (Command.none, s)
  | (true, s) =>
    match s.window_decode_value with
    | (DecodedValue.EscapeCode escape_code, s) =>
      match escape_code with
      | EscapeCode.StartOfFrame => (Command.none, { s with state := InputState.ReadingFrame })
      | EscapeCode.CorrectFrameData => (Command.SendNextFrame, s)
      | EscapeCode.IncorrectFrameData => (Command.ResendLastFrame, s)
      | EscapeCode.FinishedSending => (Command.StopReceivingData, s)
      | EscapeCode.Buffer1 => (Command.none, s)
      | EscapeCode.Buffer2 => (Command.none, s)
      | EscapeCode.EndOfFrame => (Command.none, s)
    | (_, s) => (Command.none, s)

/-- `InputStream::reading_frame`.  Nibble values are ORed into the addressed
data cell (`data[i] |= value << shift`), `Byte` values overwrite it; the
escape branch re-asserts `state = ReadingFrame` before dispatching (a no-op
for a stream already in `ReadingFrame`, skipped for `StartOfFrame`). -/
def InputStream.reading_frame (s : InputStream) (nibble : Nat) : Command × InputStream :=
  match s.window_push nibble with
  | (false, s) => (Command.none, s)
  | (true, s) =>
    match s.window_decode_value with
    | (DecodedValue.Nibble value, s) =>
      let cell := s.data.getD (s.data_index / 2) 0 ||| (value <<< ((1 + s.data_index) % 2 * 4))
      (Command.none,
        { s with data := s.data.set (s.data_index / 2) cell, data_index := s.data_index + 1 })
    | (DecodedValue.Byte value, s) =>
      (Command.none,
        { s with data := s.data.set (s.data_index / 2) value, data_index := s.data_index + 2 })
    | (DecodedValue.EscapeCode escape_code, s) =>
      let s := if escape_code = EscapeCode.StartOfFrame then s
               else { s with state := InputState.ReadingFrame }
      match escape_code with
      | EscapeCode.StartOfFrame =>
        if s.data_index ≠ 0 then (Command.ResendLastFrame, s) else (Command.none, s)
      | EscapeCode.EndOfFrame =>
        if s.data_index / 2 = s.data.length then
          (Command.Received s.data, { s with data_index := 0 })
        else
          (Command.ResendLastFrame, { s with data_index := 0 })
      | EscapeCode.CorrectFrameData => (Command.SendNextFrame, s)
      | EscapeCode.IncorrectFrameData => (Command.ResendLastFrame, s)
      | EscapeCode.FinishedSending => (Command.StopReceivingData, s)
      | EscapeCode.Buffer1 => (Command.none, s)
      | EscapeCode.Buffer2 => (Command.none, s)

/-- `InputStream::push`. -/
def InputStream.push (s : InputStream) (nibble : Nat) : Command × InputStream :=
  match s.state with
  | InputState.WaitingForFrame => s.waiting_for_frame nibble
  | InputState.ReadingFrame => s.reading_frame nibble

/-- Drive `InputStream::push` over a list of nibbles, collecting the returned
commands. -/
def InputStream.pushAll : InputStream → List Nat → List Command × InputStream
  | s, [] => ([], s)
  | s, n :: rest =>
    match s.push n with
    | (cmd, s2) =>
      match s2.pushAll rest with
      | (cmds, s3) => (cmd :: cmds, s3)

/-- The concatenation of the payloads of all `Received` commands in a list. -/
def receivedPayloads (cmds : List Command) : List Nat :=
  (cmds.map fun c =>
    match c with
    | Command.Received d => d
    | _ => []).flatten

/-- `OutputState` from `src/stream.rs`. -/
inductive OutputState
  | WaitingForFrame
  | WritingFrame
deriving DecidableEq, Repr

/-- `Window<4>` from `src/stream.rs`: four underlying bytes holding up to
eight nibbles, newest nibble in the low bits of the last byte. -/
structure Window where
  data : List Nat
  len : Nat
deriving DecidableEq, Repr

/-- `Window::new` at `N = 4`. -/
def Window.new : Window :=
  { data := List.replicate 4 0, len := 0 }

/-- `Window::push_back`: shift every nibble one position to the left, filling
the freed low nibble from the byte to the right (or with the new nibble for
the last byte).  `*byte <<= 4` on `u8` is `* 16 % 256`; the `|=` lands in the
cleared low nibble. -/
def Window.push_back (w : Window) (nibble : Nat) : Option Nat × Window :=
  let prev := w.data
  let data := (List.range prev.length).map fun index =>
    let shifted := prev.getD index 0 * 16 % 256
    let filler :=
      match prev.get? (index + 1) with
      | some byte_to_right => byte_to_right / 16
      | Option.none => nibble
    shifted + filler % 16
  let filled := w.len / 2 == prev.length
  if filled then
    (some (prev.getD 0 0 / 16), { data := data, len := w.len })
  else
    (Option.none, { data := data, len := w.len + 1 })

/-- `Window::get`: nibble `index` counted from the back (0 = newest). -/
def Window.get (w : Window) (index : Nat) : Option Nat :=
  if index ≥ w.len then Option.none
  else
    let byte_index := w.data.length - 1 - index / 2
    let byte := w.data.getD byte_index 0
    some (if index % 2 == 0 then byte % 16 else byte / 16)

/-- `Window::pop_front`.  At `len = 0` the source computes `self.len - 1` on a
`usize` (a panic in debug builds); the embedding's saturating `Nat`
subtraction makes `get` return `none` there, and no caller reaches it. -/
def Window.pop_front (w : Window) : Option Nat × Window :=
  let result := w.get (w.len - 1)
  if w.len > 0 then (result, { w with len := w.len - 1 }) else (result, w)

/-- `Window::pop_back`: shift every nibble one position to the right. -/
def Window.pop_back (w : Window) : Option Nat × Window :=
  let prev := w.data
  let data := (List.range prev.length).map fun index =>
    let shifted := prev.getD index 0 / 16
    let filler :=
      match index with
      | 0 => 0
      | i + 1 => prev.getD i 0 * 16 % 256
    shifted + filler
  if w.len > 0 then
    (some (prev.getD (prev.length - 1) 0 % 16), { data := data, len := w.len - 1 })
  else
    (Option.none, { data := data, len := w.len })

/-- `OutputStream` from `src/stream.rs`. -/
structure OutputStream where
  state : OutputState
  frame : List Nat
  index : Nat
  window : Window
deriving DecidableEq, Repr

/-- `OutputStream::new`. -/
def OutputStream.new : OutputStream :=
  { state := OutputState.WaitingForFrame
    frame := List.replicate FRAME_LEN 0
    index := 0
    window := Window.new }

/-- `OutputStream::send_frame`. -/
def OutputStream.send_frame (s : OutputStream) (frame : List Nat) : OutputStream :=
  { s with state := OutputState.WritingFrame, frame := frame, index := 0 }

/-- `OutputStream::resend_frame` (note: the source sets the state to
`WaitingForFrame`). -/
def OutputStream.resend_frame (s : OutputStream) : OutputStream :=
  { s with state := OutputState.WaitingForFrame, index := 0 }

/-- `OutputStream::waiting_for_frame`: the alternating idle pattern. -/
def OutputStream.waiting_for_frame (s : OutputStream) : Nat × OutputStream :=
  (if s.index % 2 == 0 then 0x0f else 0x00, { s with index := s.index + 1 })

/-- `OutputStream::writing_frame`.  Faithful to the source, which never
advances `self.index` here: at most one nibble of `frame[0]` is ever pushed
into the lookahead window.  The `.expect(..)` calls on `get` are modelled
with a default of 0 (unreached: `len = 2` makes both `get`s succeed). -/
def OutputStream.writing_frame (s : OutputStream) : Option Nat × OutputStream :=
  let s :=
    match s.frame.get? (s.index / 2) with
    | some byte =>
      let nibble := if s.index % 2 == 0 then byte / 16 else byte % 16
      { s with window := (s.window.push_back nibble).2 }
    | Option.none => s
  if s.window.len > 2 then
    match s.window.pop_front with
    | (r, w) => (r, { s with window := w })
  else if s.window.len == 2 then
    let higher := (s.window.get 1).getD 0
    let lower := (s.window.get 0).getD 0
    let escape_code :=
      if higher == EscapeCode.value EscapeCode.Buffer1 / 16 then
        EscapeCode.value EscapeCode.Buffer2
      else
        EscapeCode.value EscapeCode.Buffer1 / 16
    let s :=
      if higher == lower then
        let w := (s.window.pop_back).2
        let w := (w.push_back (escape_code / 16)).2
        let w := (w.push_back (escape_code % 16)).2
        let w := (w.push_back lower).2
        { s with window := w }
      else s
    match s.window.pop_front with
    | (r, w) => (r, { s with window := w })
  else
    (Option.none, s)

/-- `OutputStream::next`: emit the next wire nibble; fall back to the idle
pattern when `writing_frame` yields nothing. -/
def OutputStream.next (s : OutputStream) : Nat × OutputStream :=
  match s.state with
  | OutputState.WaitingForFrame => s.waiting_for_frame
  | OutputState.WritingFrame =>
    match s.writing_frame with
    | (some nibble, s2) => (nibble, s2)
    | (Option.none, s2) =>
      ({ s2 with state := OutputState.WaitingForFrame }).waiting_for_frame

/-- Collect `k` successive nibbles from `OutputStream::next`. -/
def OutputStream.emit : OutputStream → Nat → List Nat × OutputStream
  | s, 0 => ([], s)
  | s, Nat.succ k =>
    match s.next with
    | (nib, s2) =>
      match s2.emit k with
      | (ns, s3) => (nib :: ns, s3)

example :
    (InputStream.new.pushAll [1, 2, 5, 6]).2.state = InputState.ReadingFrame := by decide

example :
    ((OutputStream.new.send_frame (0x12 :: (List.replicate 64 1 ++ [0x23]))).emit 6).1 =
      [0x0f, 0x00, 0x0f, 0x00, 0x0f, 0x00] := by decide

namespace Main

/-- Modelled from the spec: `src/main.rs` compiles against an escape-code
enum revision with a single `Buffer` variant that is absent from `src/`
(`src/escape.rs` holds the newer seven-variant revision).  The six control
bytes are those of the spec's table and of the escaping table in the
`encode_frame` doc comment: SOF 0x12, EOF 0x23, CFD 0x34, IFD 0x45,
Buffer 0x56, FS 0x67. -/
inductive EscapeCode
  | StartOfFrame
  | EndOfFrame
  | CorrectFrameData
  | IncorrectFrameData
  | Buffer
  | FinishedSending
deriving DecidableEq, Repr

/-- Modelled from the spec: `from_byte` over the six-value control table. -/
def EscapeCode.from_byte (byte : Nat) : Option EscapeCode :=
  if byte = 0x12 then some EscapeCode.StartOfFrame
  else if byte = 0x23 then some EscapeCode.EndOfFrame
  else if byte = 0x34 then some EscapeCode.CorrectFrameData
  else if byte = 0x45 then some EscapeCode.IncorrectFrameData
  else if byte = 0x56 then some EscapeCode.Buffer
  else if byte = 0x67 then some EscapeCode.FinishedSending
  else Option.none

/-- Modelled from the spec: `swap_nibbles`, imported by `src/main.rs` from
`escape` but absent from `src/escape.rs`; per the escaping table in the
`encode_frame` doc comment (0x12 escaped as 0x12 0x21, …) it exchanges the
two nibbles of a byte. -/
def swap_nibbles (byte : Nat) : Nat :=
  byte % 16 * 16 + byte / 16 % 16

/-- `Command` from `src/main.rs` (carries the whole frame, not just data). -/
inductive Command
  | Received (frame : List Nat)
  | SendNextFrame
  | ResendLastFrame
  | StopReceivingData
  | none
deriving DecidableEq, Repr

/-- `InputStream` from `src/main.rs` (the older revision: no explicit state
enum; a whole-frame buffer indexed by byte). -/
structure InputStream where
  window : Nat
  window_length : Nat
  frame : List Nat
  frame_index : Nat
deriving DecidableEq, Repr

/-- `InputStream::new` from `src/main.rs`. -/
def InputStream.new : InputStream :=
  { window := 0x0000
    window_length := 0
    frame := List.replicate FRAME_LEN 0
    frame_index := 0 }

/-- `InputStream::push` from `src/main.rs`.  Note `higher_byte` is
`(window >> 4) as u8` (unlike the `>> 8` of `src/stream.rs`), the
escaped-literal test uses `swap_nibbles`, and every decode that yields
`Command::None` appends `higher_byte` to the frame buffer.  The
`EscapeCode::Buffer => todo!()` arm is the `none` result (a panic). -/
def InputStream.push (s : InputStream) (nibble : Nat) : Option (Command × InputStream) :=
  let nibble := nibble % 16
  let previous_nibble := (s.window % 256) % 16
  if previous_nibble = nibble then
    some (Command.none, s)
  else
    let s := { s with
      window := (s.window * 16) % 65536 + nibble
      window_length := (s.window_length + 1) % 256 }
    if s.window_length < 4 then
      some (Command.none, s)
    else
      let higher_byte := (s.window / 16) % 256
      let lower_byte := s.window % 256
      let step : Option (Command × InputStream) :=
        match EscapeCode.from_byte higher_byte with
        | Option.none => some (Command.none, { s with window_length := 2 })
        | some escape_code =>
          if higher_byte = swap_nibbles lower_byte then
            some (Command.none, { s with window_length := 0 })
          else
            let s := { s with window_length := 2 }
            match escape_code with
            | EscapeCode.StartOfFrame =>
              if s.frame_index ≠ 0 then some (Command.ResendLastFrame, s)
              else some (Command.none, s)
            | EscapeCode.EndOfFrame =>
              if s.frame_index ≠ s.frame.length - 1 then
                some (Command.ResendLastFrame, s)
              else
                let s := { s with frame := s.frame.set (FRAME_LEN - 1) 0x23 }
                some (Command.Received s.frame, { s with frame_index := 0 })
            | EscapeCode.Buffer => Option.none
            | EscapeCode.CorrectFrameData => some (Command.SendNextFrame, s)
            | EscapeCode.IncorrectFrameData => some (Command.ResendLastFrame, s)
            | EscapeCode.FinishedSending => some (Command.StopReceivingData, s)
      match step with
      | some (Command.none, s2) =>
        some (Command.none,
          { s2 with frame := s2.frame.set s2.frame_index higher_byte
                    frame_index := s2.frame_index + 1 })
      | other => other

/-- `OutputStream` from `src/main.rs` (the older, pull-based revision). -/
structure OutputStream where
  frame : List Nat
  index : Nat
deriving DecidableEq, Repr

/-- `OutputStream::new` from `src/main.rs`. -/
def OutputStream.new (frame : List Nat) : OutputStream :=
  { frame := frame, index := 0 }

/-- `OutputStream::pull` from `src/main.rs`. -/
def OutputStream.pull (s : OutputStream) : Option Nat × OutputStream :=
  if s.index ≥ s.frame.length * 2 then
    (Option.none, s)
  else
    let byte := s.frame.getD (s.index / 2) 0
    let byte := if s.index % 2 == 0 then byte / 16 else byte % 16
    (some byte, { s with index := s.index + 1 })

/-- `OutputStream::reset` from `src/main.rs`. -/
def OutputStream.reset (s : OutputStream) : OutputStream :=
  { s with index := 0 }

/-- `Connection` from `src/main.rs`; the device is external (its `send` is a
sink and its `read` becomes `poll`'s argument), `debug_lines` is omitted. -/
structure Connection where
  i_stream : Main.InputStream
  o_stream : Main.OutputStream
  data : Escaped
  done_receiving : Bool
deriving DecidableEq, Repr

/-- `Connection::new`: encode the first frame from the escaped source and arm
the output stream with it (`none` when `encode_frame` panics on `Err`). -/
def Connection.new (bytes : List (Except Unit Nat)) : Option Connection :=
  match encode_frame (Escaped.new bytes) with
  | some (frame, data) =>
    some { i_stream := Main.InputStream.new
           o_stream := Main.OutputStream.new frame
           data := data
           done_receiving := false }
  | Option.none => Option.none

/-- `Connection::poll` from `src/main.rs`, with the nibble returned by
`device.read()` as argument: pull one nibble for the device, push the read
nibble, dispatch the command, and return
`!(self.data.is_done() && self.done_receiving)`. -/
def Connection.poll (c : Connection) (nibble_in : Nat) : Option (Bool × Connection) :=
  let c := { c with o_stream := (c.o_stream.pull).2 }
  match c.i_stream.push nibble_in with
  | Option.none => Option.none
  | some (cmd, i2) =>
    let c := { c with i_stream := i2 }
    let step : Option Connection :=
      match cmd with
      | Main.Command.Received _ => some c
      | Main.Command.SendNextFrame =>
        match encode_frame c.data with
        | some (frame, data) =>
          some { c with o_stream := Main.OutputStream.new frame, data := data }
        | Option.none => Option.none
      | Main.Command.ResendLastFrame => some { c with o_stream := c.o_stream.reset }
      | Main.Command.StopReceivingData => some { c with done_receiving := true }
      | Main.Command.none => some c
    match step with
    | some c2 => some (!(c2.data.is_done && c2.done_receiving), c2)
    | Option.none => Option.none

/-- Drive `poll` over a list of device-read nibbles, collecting the returned
booleans. -/
def Connection.pollTrace : Connection → List Nat → Option (List Bool × Connection)
  | c, [] => some ([], c)
  | c, n :: rest =>
    match c.poll n with
    | some (b, c2) =>
      match c2.pollTrace rest with
      | some (bs, c3) => some (b :: bs, c3)
      | Option.none => Option.none
    | Option.none => Option.none

end Main

example :
    (((Main.Connection.new []).bind fun c => c.pollTrace [1, 6, 7, 1, 1]).map
      fun p => (p.1, p.2.done_receiving, p.2.data.bytes.isEmpty, p.2.data.escape.isNone,
        p.2.data.done)) =
      some ([true, true, true, true, true], true, true, true, false) := by decide

/-- The idle nibble `OutputStream::waiting_for_frame` emits at index `idx`. -/
def idleNib (idx : Nat) : Nat :=
  if idx % 2 == 0 then 0x0f else 0x00

/-- `k` idle nibbles starting at index `idx`. -/
def idleList : Nat → Nat → List Nat
  | _, 0 => []
  | idx, Nat.succ k => idleNib idx :: idleList (idx + 1) k

/-- The `InputStream` state after consuming the first `k` nibbles of the idle
pattern `0xF, 0x0, 0xF, …`: the window fills over the first four nibbles and
then alternates between `0xf0f0` and `0x0f0f` at fill level 3, never decoding
an escape code. -/
def dState : Nat → InputStream
  | 0 => InputStream.new
  | 1 => { InputStream.new with window := 0x000f, window_length := 1 }
  | 2 => { InputStream.new with window := 0x00f0, window_length := 2 }
  | 3 => { InputStream.new with window := 0x0f0f, window_length := 3 }
  | k + 4 =>
    { InputStream.new with
        window := if k % 2 == 0 then 0xf0f0 else 0x0f0f
        window_length := 3 }

/-- The round-trip pipeline of the spec, one whole frame of source bytes:
escape-encode `source`, pack it with `encode_frame`, arm the packed frame on
a fresh `OutputStream` via `send_frame`, emit `steps` wire nibbles with
`next`, and push them all into a fresh `InputStream`. -/
def roundTripCommands (source : List Nat) (steps : Nat) : Option (List Command) :=
  match encode_frame (Escaped.new (source.map Except.ok)) with
  | some (frame, _) =>
    some (InputStream.new.pushAll ((OutputStream.new.send_frame frame).emit steps).1).1
  | Option.none => Option.none

/-- The 64-byte source stream used to exhibit the round-trip failure. -/
def c1Source : List Nat := List.replicate FRAME_DATA_LEN 1

/-- The frame `encode_frame` packs from `c1Source`. -/
def c1Frame : List Nat := 0x12 :: (List.replicate 64 1 ++ [0x23])

example : (encode_frame (Escaped.new (c1Source.map Except.ok))) =
    some (c1Frame, { bytes := [], escape := Option.none, done := true }) := by decide

lemma drainAux_new (src : List (Except Unit Nat)) (d : Bool) :
    ∀ fuel, 2 * src.length + 1 ≤ fuel →
      Escaped.drainAux fuel { bytes := src, escape := Option.none, done := d } =
        escapedSpec src := by
  induction src generalizing d with
  | nil =>
    intro fuel hf
    match fuel, hf with
    | Nat.succ f, _ => simp [Escaped.drainAux, Escaped.next, escapedSpec]
  | cons item rest ih =>
    intro fuel hf
    match fuel, hf with
    | Nat.succ f, hf =>
      have hf1 : 2 * rest.length + 1 ≤ f := by
        simp only [List.length_cons] at hf; omega
      match item with
      | Except.error u =>
        simp only [Escaped.drainAux, Escaped.next, escapedSpec]
        exact congrArg _ (ih true f hf1)
      | Except.ok b =>
        by_cases hb : b ∈ EscapeCode.values
        · match f, hf1 with
          | Nat.succ f2, _ =>
            have hf2 : 2 * rest.length + 1 ≤ f2 := by
              simp only [List.length_cons] at hf; omega
            simp only [Escaped.drainAux, Escaped.next, escapedSpec, hb, if_pos]
            exact congrArg _ (congrArg _ (ih true f2 hf2))
        · simp only [Escaped.drainAux, Escaped.next, escapedSpec, hb, if_neg,
            Bool.false_eq_true, not_false_eq_true]
          exact congrArg _ (ih true f hf1)

lemma drain_new_eq_spec (src : List (Except Unit Nat)) :
    Escaped.drain (Escaped.new src) = escapedSpec src :=
  drainAux_new src false _ (Nat.le_refl _)

lemma emit_waiting (frame : List Nat) (w : Window) :
    ∀ (k idx : Nat),
      OutputStream.emit
        { state := OutputState.WaitingForFrame, frame := frame, index := idx, window := w } k =
      (idleList idx k,
        { state := OutputState.WaitingForFrame, frame := frame, index := idx + k, window := w }) := by
  intro k
  induction k with
  | zero => intro idx; simp [OutputStream.emit, idleList]
  | succ k ih =>
    intro idx
    simp only [OutputStream.emit, OutputStream.next, OutputStream.waiting_for_frame, idleList,
      idleNib]
    rw [ih (idx + 1)]
    have h : idx + 1 + k = idx + (k + 1) := by omega
    rw [h]

lemma dStep : ∀ k : Nat, (dState k).push (idleNib k) = (Command.none, dState (k + 1))
  | 0 => by decide
  | 1 => by decide
  | 2 => by decide
  | 3 => by decide
  | (m + 4) => by
    have hidx : m + 4 + 1 = m + 1 + 4 := by omega
    rw [hidx]
    have h4 : (m + 4) % 2 = m % 2 := by omega
    rcases Nat.mod_two_eq_zero_or_one m with h | h
    · have h5 : (m + 1) % 2 = 1 := by omega
      simp only [dState, idleNib, h4, h, h5]
      decide
    · have h5 : (m + 1) % 2 = 0 := by omega
      simp only [dState, idleNib, h4, h, h5]
      decide

lemma dRun : ∀ (m k : Nat),
    (dState k).pushAll (idleList k m) = (List.replicate m Command.none, dState (k + m)) := by
  intro m
  induction m with
  | zero => intro k; simp [idleList, InputStream.pushAll]
  | succ m ih =>
    intro k
    simp only [idleList, InputStream.pushAll, dStep k]
    rw [ih (k + 1)]
    have h : k + 1 + m = k + (m + 1) := by omega
    rw [h]
    simp [List.replicate]

lemma receivedPayloads_replicate_none (m : Nat) :
    receivedPayloads (List.replicate m Command.none) = [] := by
  induction m with
  | zero => rfl
  | succ m _ => simp [receivedPayloads, List.replicate]

lemma window_push_reject (s : InputStream) (n : Nat)
    (h : (s.window % 256) % 16 = n % 16) :
    s.window_push n = (false, s) := by
  simp [InputStream.window_push, h]

lemma window_push_accept (s : InputStream) (n : Nat)
    (h : (s.window % 256) % 16 ≠ n % 16) :
    s.window_push n = ((s.window_length + 1) % 256 == 4,
      { s with window := s.window * 16 % 65536 + n % 16
               window_length := (s.window_length + 1) % 256 }) := by
  simp [InputStream.window_push, h]

lemma push_eof_eval (s : InputStream) (n : Nat)
    (hst : s.state = InputState.ReadingFrame)
    (hlen : s.window_length = 3)
    (hacc : (s.window % 256) % 16 ≠ n % 16)
    (hhi : (s.window * 16 % 65536 + n % 16) / 256 % 256 = 0x23)
    (hlo : (s.window * 16 % 65536 + n % 16) % 256 ≠ 0x23) :
    s.push n =
      (if s.data_index / 2 = s.data.length then Command.Received s.data
       else Command.ResendLastFrame,
       { s with window := s.window * 16 % 65536 + n % 16
                window_length := 2
                data_index := 0 }) := by
  have hwp := window_push_accept s n hacc
  simp only [InputStream.push, hst, InputStream.reading_frame, hwp, hlen,
    InputStream.window_decode_value, EscapeCode.from_byte]
  simp [hhi, Ne.symm hlo, hst]
  by_cases hrec : s.data_index / 2 = s.data.length <;> simp [hrec]

lemma push_window_invariant (s : InputStream) (n : Nat) (h : s.window_length ≤ 3) :
    (s.push n).2.window_length ≤ 3 ∧ (s.push n).2.window % 16 = n % 16 := by
  have hw16 : (s.window * 16 % 65536 + n % 16) % 16 = n % 16 := by omega
  by_cases hrej : (s.window % 256) % 16 = n % 16
  · have hwp := window_push_reject s n hrej
    have hmod : s.window % 16 = n % 16 := by omega
    rcases hst : s.state with _ | _ <;>
      simp [InputStream.push, hst, InputStream.waiting_for_frame,
        InputStream.reading_frame, hwp, h, hmod]
  · have hwp := window_push_accept s n hrej
    by_cases hfull : s.window_length = 3
    · rcases hfb : EscapeCode.from_byte ((s.window * 16 % 65536 + n % 16) / 256 % 256)
        with _ | esc
      · rcases hst : s.state with _ | _ <;>
          simp [InputStream.push, hst, InputStream.waiting_for_frame,
            InputStream.reading_frame, hwp, hfull, InputStream.window_decode_value, hfb, hw16]
      · by_cases hbe : (s.window * 16 % 65536 + n % 16) / 256 % 256 =
            (s.window * 16 % 65536 + n % 16) % 256
        · have hfb2 : EscapeCode.from_byte ((s.window * 16 % 65536 + n % 16) % 256) =
              some esc := hbe ▸ hfb
          rcases hst : s.state with _ | _ <;>
            simp [InputStream.push, hst, InputStream.waiting_for_frame,
              InputStream.reading_frame, hwp, hfull, InputStream.window_decode_value, hfb, hfb2,
              hbe, hw16]
        · rcases hst : s.state with _ | _ <;>
            cases esc <;>
              simp [InputStream.push, hst, InputStream.waiting_for_frame,
                InputStream.reading_frame, hwp, hfull, InputStream.window_decode_value, hfb, hbe,
                hw16] <;>
              try (split <;> simp [hw16])
    · have hb : ((s.window_length + 1) % 256 == 4) = false := by
        rw [beq_eq_false_iff_ne]; omega
      rcases hst : s.state with _ | _ <;>
        simp [InputStream.push, hst, InputStream.waiting_for_frame,
          InputStream.reading_frame, hwp, hb, hw16] <;> omega

lemma push_reading_absorbing (s : InputStream) (n : Nat)
    (hst : s.state = InputState.ReadingFrame) :
    ((s.push n).2).state = InputState.ReadingFrame := by
  by_cases hrej : (s.window % 256) % 16 = n % 16
  · simp [InputStream.push, hst, InputStream.reading_frame, window_push_reject s n hrej]
  · have hwp := window_push_accept s n hrej
    cases hb : ((s.window_length + 1) % 256 == 4) with
    | false =>
      simp [InputStream.push, hst, InputStream.reading_frame, hwp, hb]
    | true =>
      rcases hfb : EscapeCode.from_byte ((s.window * 16 % 65536 + n % 16) / 256 % 256)
        with _ | esc
      · simp [InputStream.push, hst, InputStream.reading_frame, hwp, hb,
          InputStream.window_decode_value, hfb]
      · by_cases hbe : (s.window * 16 % 65536 + n % 16) / 256 % 256 =
            (s.window * 16 % 65536 + n % 16) % 256
        · have hfb2 : EscapeCode.from_byte ((s.window * 16 % 65536 + n % 16) % 256) =
              some esc := hbe ▸ hfb
          simp [InputStream.push, hst, InputStream.reading_frame, hwp, hb,
            InputStream.window_decode_value, hfb, hfb2, hbe]
        · cases esc <;>
            simp [InputStream.push, hst, InputStream.reading_frame, hwp, hb,
              InputStream.window_decode_value, hfb, hbe] <;>
            try (split <;> simp [hst])

lemma pushAll_reading_absorbing (s : InputStream) (ns : List Nat)
    (hst : s.state = InputState.ReadingFrame) :
    ((s.pushAll ns).2).state = InputState.ReadingFrame := by
  induction ns generalizing s with
  | nil => simpa [InputStream.pushAll] using hst
  | cons n rest ih =>
    have h2 := push_reading_absorbing s n hst
    rcases hp : s.push n with ⟨cmd, s2⟩
    rw [hp] at h2
    have h3 := ih s2 h2
    rcases hq : s2.pushAll rest with ⟨cmds, s3⟩
    rw [hq] at h3
    simp only [InputStream.pushAll, hp, hq]
    exact h3

lemma push_sof_midframe_eval (s : InputStream) (n : Nat)
    (hst : s.state = InputState.ReadingFrame)
    (hlen : s.window_length = 3)
    (hacc : (s.window % 256) % 16 ≠ n % 16)
    (hhi : (s.window * 16 % 65536 + n % 16) / 256 % 256 = 0x12)
    (hlo : (s.window * 16 % 65536 + n % 16) % 256 ≠ 0x12)
    (hdi : s.data_index ≠ 0) :
    s.push n =
      (Command.ResendLastFrame,
       { s with window := s.window * 16 % 65536 + n % 16
                window_length := 2 }) := by
  have hwp := window_push_accept s n hacc
  simp only [InputStream.push, hst, InputStream.reading_frame, hwp, hlen,
    InputStream.window_decode_value, EscapeCode.from_byte]
  simp [hhi, Ne.symm hlo, hst, hdi]

example :
    (InputStream.new.pushAll [1, 2, 5, 6, 1, 2, 3, 4, 5, 6]).1 =
      [Command.none, Command.none, Command.none, Command.none, Command.none,
       Command.none, Command.none, Command.none, Command.none, Command.SendNextFrame] := by
  decide

/-- Witness state for the end-of-frame length check: a stream in
`ReadingFrame` whose window holds nibbles `0,2,3` and whose 128 data nibbles
(64 bytes) have all been written. -/
def c4State : InputStream :=
  { state := InputState.ReadingFrame
    window := 0x0234
    window_length := 3
    data := List.replicate 64 0
    data_index := 128 }

/-- Witness state for the mid-frame start-of-frame check: a stream in
`ReadingFrame` with 7 nibbles already received. -/
def c5State : InputStream :=
  { state := InputState.ReadingFrame
    window := 0x0123
    window_length := 3
    data := List.replicate 64 0
    data_index := 7 }

/-- C1: the round-trip property fails on the code.  For the whole-frame
source of 64 bytes `0x01`, piping it through the escape encoder, the frame
packer `encode_frame` and `OutputStream` produces, for every number of
`next()` steps, a nibble sequence that `InputStream::push` decodes to no
`Received` command at all: `writing_frame` never advances `index` and falls
back to the idle pattern on its first call, so the concatenated payloads are
`[]`, not the source stream. -/
theorem roundTrip_outputStream_never_delivers :
    (∀ steps, (roundTripCommands c1Source steps).map receivedPayloads = some []) ∧
      c1Source ≠ [] := by
  refine ⟨?_, by decide⟩
  intro steps
  have henc : encode_frame (Escaped.new (c1Source.map Except.ok)) =
      some (c1Frame, { bytes := [], escape := Option.none, done := true }) := by decide
  simp only [roundTripCommands, henc]
  cases steps with
  | zero =>
    simp [OutputStream.emit, InputStream.pushAll, receivedPayloads]
  | succ k =>
    have hfirst : (OutputStream.new.send_frame c1Frame).next =
        (0x0f, { state := OutputState.WaitingForFrame, frame := c1Frame, index := 1,
                 window := { data := [0, 0, 0, 1], len := 1 } }) := by decide
    have hemit := emit_waiting c1Frame { data := [0, 0, 0, 1], len := 1 } k 1
    simp only [OutputStream.emit, hfirst, hemit]
    have hlist : (0x0f : Nat) :: idleList 1 k = idleList 0 (k + 1) := rfl
    rw [hlist]
    have hrun := dRun (k + 1) 0
    simp only [dState] at hrun
    rw [hrun]
    simp [receivedPayloads_replicate_none]

/-- C2: the adjacent-transition guarantee fails on the code.  A fresh
`OutputStream` emits `0xF`; arming a frame with `send_frame` resets `index`
to 0, and the next call to `next()` falls straight back from `writing_frame`
to the idle pattern and emits `0xF` again: two consecutive calls return
equal nibbles. -/
theorem outputStream_equal_adjacent_nibbles :
    (OutputStream.new.next).1 = 0x0f ∧
      (((OutputStream.new.next).2.send_frame c1Frame).next).1 = 0x0f := by
  decide

/-- C3 counterexample: byte `0x65` is not one of the six spec-listed escape
values, yet the `Escaped` iterator emits it twice (the enum has a seventh
variant, `Buffer2 = 0x65`). -/
theorem escaped_six_values_counterexample :
    Escaped.drain (Escaped.new [Except.ok 0x65]) = [Except.ok 0x65, Except.ok 0x65] ∧
      (0x65 : Nat) ∉ [0x12, 0x23, 0x34, 0x45, 0x56, 0x67] := by
  decide

/-- C3 (amended): the `Escaped` iterator emits each `Ok` byte twice exactly
when it is one of the seven `EscapeCode::VALUES` (including `Buffer2 = 0x65`)
and once otherwise, and forwards `Err` items unchanged as single items. -/
theorem escaped_doubles_escape_table_values :
    ∀ src, Escaped.drain (Escaped.new src) = escapedSpec src :=
  drain_new_eq_spec

/-- C4: in `ReadingFrame`, when the pushed nibble completes the window and it
decodes to `EscapeCode(EndOfFrame)`, `push` returns `Received(data)` exactly
when `data_index / 2 = data.len()`, and `ResendLastFrame` otherwise; in both
cases `data_index` is reset to 0. -/
theorem push_eof_length_check (s : InputStream) (n : Nat)
    (hst : s.state = InputState.ReadingFrame)
    (hlen : s.window_length = 3)
    (hacc : (s.window % 256) % 16 ≠ n % 16)
    (hhi : (s.window * 16 % 65536 + n % 16) / 256 % 256 = 0x23)
    (hlo : (s.window * 16 % 65536 + n % 16) % 256 ≠ 0x23) :
    s.push n =
      (if s.data_index / 2 = s.data.length then Command.Received s.data
       else Command.ResendLastFrame,
       { s with window := s.window * 16 % 65536 + n % 16
                window_length := 2
                data_index := 0 }) :=
  push_eof_eval s n hst hlen hacc hhi hlo

/-- Witness for C4 at a concrete full frame: the EOF escape yields
`Received`. -/
theorem push_eof_length_check_witness :
    c4State.push 5 =
      (if c4State.data_index / 2 = c4State.data.length then Command.Received c4State.data
       else Command.ResendLastFrame,
       { c4State with window := c4State.window * 16 % 65536 + 5 % 16
                      window_length := 2
                      data_index := 0 }) :=
  push_eof_length_check c4State 5 rfl rfl (by decide) (by decide) (by decide)

/-- C5 counterexample: from a fresh stream, the pushes `1,2,5,6,1,2,3` reach
`ReadingFrame` with `data_index = 0`; the next push `4` decodes a
`StartOfFrame` escape from the window (returning `None`), and the following
non-`None` command — after pushes `5,6` — is `SendNextFrame`, not
`ResendLastFrame`. -/
theorem sof_in_reading_frame_counterexample :
    ((InputStream.new.pushAll [1, 2, 5, 6, 1, 2, 3]).2.state = InputState.ReadingFrame) ∧
      ((InputStream.new.pushAll [1, 2, 5, 6, 1, 2, 3]).2.data_index = 0) ∧
      (((InputStream.new.pushAll [1, 2, 5, 6, 1, 2, 3]).2.window_push 4).1 = true) ∧
      ((((InputStream.new.pushAll [1, 2, 5, 6, 1, 2, 3]).2.window_push 4).2.window_decode_value).1
          = DecodedValue.EscapeCode EscapeCode.StartOfFrame) ∧
      (((InputStream.new.pushAll [1, 2, 5, 6, 1, 2, 3]).2.pushAll [4, 5, 6]).1
          = [Command.none, Command.none, Command.SendNextFrame]) ∧
      Command.SendNextFrame ≠ Command.ResendLastFrame := by
  decide

/-- C5 (amended): in `ReadingFrame`, a decoded `StartOfFrame` escape makes
that same call to `push` return `ResendLastFrame` provided `data_index ≠ 0`
(mid-frame); with `data_index = 0` the SOF is ignored. -/
theorem push_sof_midframe_resend (s : InputStream) (n : Nat)
    (hst : s.state = InputState.ReadingFrame)
    (hlen : s.window_length = 3)
    (hacc : (s.window % 256) % 16 ≠ n % 16)
    (hhi : (s.window * 16 % 65536 + n % 16) / 256 % 256 = 0x12)
    (hlo : (s.window * 16 % 65536 + n % 16) % 256 ≠ 0x12)
    (hdi : s.data_index ≠ 0) :
    s.push n =
      (Command.ResendLastFrame,
       { s with window := s.window * 16 % 65536 + n % 16
                window_length := 2 }) :=
  push_sof_midframe_eval s n hst hlen hacc hhi hlo hdi

/-- Witness for the amended C5 at a concrete mid-frame state. -/
theorem push_sof_midframe_resend_witness :
    c5State.push 4 =
      (Command.ResendLastFrame,
       { c5State with window := c5State.window * 16 % 65536 + 4 % 16
                      window_length := 2 }) :=
  push_sof_midframe_resend c5State 4 rfl rfl (by decide) (by decide) (by decide) (by decide)

/-- C6 counterexample: `is_done()` is `false` after the source yields its
terminal `None` (empty source, one `next()`), and `true` after a successful
pull even though the source still holds another byte. -/
theorem is_done_counterexample :
    ((Escaped.next (Escaped.new [])).2.is_done = false) ∧
      ((Escaped.next (Escaped.new [Except.ok 1, Except.ok 2])).2.is_done = true) ∧
      ((Escaped.next (Escaped.new [Except.ok 1, Except.ok 2])).2.bytes ≠ []) := by
  decide

/-- C6 (amended): `done` records whether the most recent pull from the
underlying source yielded an item: a `next()` that flushes a pending escape
byte leaves it unchanged, and otherwise it becomes `true` exactly when the
source was nonempty. -/
theorem is_done_tracks_last_pull :
    ∀ e : Escaped,
      ((Escaped.next e).2).is_done =
        (match e.escape with
         | some _ => e.is_done
         | Option.none => !e.bytes.isEmpty) := by
  intro e
  rcases e with ⟨bytes, escape, done⟩
  cases escape <;> cases bytes <;> rfl

lemma poll_return_shape (c : Main.Connection) (n : Nat) (b : Bool) (c2 : Main.Connection)
    (h : c.poll n = some (b, c2)) :
    b = !(c2.data.is_done && c2.done_receiving) := by
  simp only [Main.Connection.poll] at h
  repeat' split at h
  all_goals try simp_all
  all_goals (obtain ⟨h1, rfl⟩ := h; exact h1.symm)

/-- Concrete connection used to witness the poll return-value shape. -/
def c7Conn : Main.Connection :=
  { i_stream := Main.InputStream.new
    o_stream := Main.OutputStream.new []
    data := Escaped.new []
    done_receiving := false }

/-- C7 counterexample: starting `Connection::new` on an empty source (so the
escape-encoded source is exhausted: no bytes, no pending escape, and
`done = false`), the device reads `1,6,7,1` decode a `FinishedSending`
escape, setting `done_receiving`; the fourth and the fifth call to `poll()`
still return `true`, though the claim requires `false` once the source is
exhausted and `done_receiving` holds. -/
theorem poll_exhausted_counterexample :
    (((Main.Connection.new []).bind fun c => c.pollTrace [1, 6, 7, 1, 1]).map
      fun p => (p.1, p.2.done_receiving, p.2.data.bytes.isEmpty, p.2.data.escape.isNone,
        p.2.data.is_done)) =
      some ([true, true, true, true, true], true, true, true, false) := by
  decide

/-- C7 (amended): `poll()` returns `false` exactly when
`Escaped::is_done()` — true iff the most recent pull from the escape-encoded
source yielded an item, not source exhaustion — and `done_receiving` both
hold after the command dispatch: the returned boolean is
`!(data.is_done() && done_receiving)` over the post-dispatch state. -/
theorem poll_return_value (c : Main.Connection) (n : Nat) (b : Bool) (c2 : Main.Connection)
    (h : c.poll n = some (b, c2)) :
    b = !(c2.data.is_done && c2.done_receiving) :=
  poll_return_shape c n b c2 h

/-- Witness for the amended C7 at a concrete connection and device nibble. -/
theorem poll_return_value_witness :
    (true : Bool) = !(c7Conn.data.is_done && c7Conn.done_receiving) :=
  poll_return_value c7Conn 0 true c7Conn (by decide)

/-- C8: the window invariant holds for every reachable state: the fresh
stream has `window_length = 0 ≤ 3`, and any `push` from a state with
`window_length ≤ 3` again ends with `window_length ≤ 3` (hence within
`0..=4`; the value 4 occurs only transiently inside the call, before
`window_decode_value` shrinks it), and the low 4 bits of the window equal
the low 4 bits of the nibble just pushed. -/
theorem window_invariant :
    InputStream.new.window_length ≤ 3 ∧
      ∀ (s : InputStream) (n : Nat), s.window_length ≤ 3 →
        (s.push n).2.window_length ≤ 3 ∧ (s.push n).2.window % 16 = n % 16 :=
  ⟨by decide, push_window_invariant⟩

/-- Witness for C8 at the fresh stream and nibble 7. -/
theorem window_invariant_witness :
    (InputStream.new.push 7).2.window_length ≤ 3 ∧
      (InputStream.new.push 7).2.window % 16 = 7 % 16 :=
  window_invariant.2 InputStream.new 7 (by decide)

/-- C9: `ReadingFrame` is absorbing — once the input stream is in
`ReadingFrame`, no sequence of further pushes (in particular none returning
`Received`) brings it back to `WaitingForFrame`; the code's only state
assignments write `ReadingFrame`. -/
theorem reading_frame_absorbing (s : InputStream) (ns : List Nat)
    (hst : s.state = InputState.ReadingFrame) :
    ((s.pushAll ns).2).state = InputState.ReadingFrame :=
  pushAll_reading_absorbing s ns hst

/-- Witness for C9: a concrete `ReadingFrame` state stays in `ReadingFrame`
over two further pushes. -/
theorem reading_frame_absorbing_witness :
    ((c4State.pushAll [0x0f, 0x00]).2).state = InputState.ReadingFrame :=
  reading_frame_absorbing c4State [0x0f, 0x00] rfl

/-- C10: when `push` returns `ResendLastFrame` because a `StartOfFrame`
escape was decoded mid-frame (`data_index ≠ 0`), neither `data_index` nor the
data buffer changes — the partial frame is retained; and the buffer is zeroed
only at construction (`InputStream::new`). -/
theorem sof_midframe_preserves_partial_frame :
    (∀ (s : InputStream) (n : Nat),
        s.state = InputState.ReadingFrame →
        s.window_length = 3 →
        (s.window % 256) % 16 ≠ n % 16 →
        (s.window * 16 % 65536 + n % 16) / 256 % 256 = 0x12 →
        (s.window * 16 % 65536 + n % 16) % 256 ≠ 0x12 →
        s.data_index ≠ 0 →
        (s.push n).1 = Command.ResendLastFrame ∧
          (s.push n).2.data = s.data ∧ (s.push n).2.data_index = s.data_index) ∧
      InputStream.new.data = List.replicate (FRAME_DATA_LEN + CHECKSUM_LEN) 0 := by
  refine ⟨?_, rfl⟩
  intro s n hst hlen hacc hhi hlo hdi
  rw [push_sof_midframe_eval s n hst hlen hacc hhi hlo hdi]
  exact ⟨rfl, rfl, rfl⟩

/-- Witness for C10 at a concrete mid-frame state. -/
theorem sof_midframe_preserves_partial_frame_witness :
    (c5State.push 4).1 = Command.ResendLastFrame ∧
      (c5State.push 4).2.data = c5State.data ∧
      (c5State.push 4).2.data_index = c5State.data_index :=
  sof_midframe_preserves_partial_frame.1 c5State 4 rfl rfl (by decide) (by decide)
    (by decide) (by decide)
